import Mathlib

/-!
Verification of the chat server's file-sharing and session protocols
(server.py): the File Registry, the Upload and Download protocols, the
Broadcast Dispatcher with its client cleanup, and the name handshake,
modelled as pure Lean functions over explicit state.

Bytes are natural numbers; a connection's incoming byte stream is the list
of bytes it will yield before EOF (a recv on an exhausted stream returns the
empty chunk, as a closed Python socket does).  The File Registry
(files_shared) and the storage directory (shared_files) are association
lists keyed by filename, modelling Python dicts and the file system.
-/

/-- Bytes are modelled as natural numbers (conn.recv yields byte strings). -/
abbrev Byte := Nat

/-- BUFFER_SIZE = 4096, server.py line 20. -/
def BUFFER_SIZE : Nat := 4096

/-- Whitespace as Python str.strip sees it on protocol payloads. -/
def isSpace (c : Char) : Bool := c = ' ' || c = '\t' || c = '\n' || c = '\r'

/-- Python str.strip: drop whitespace from both ends. -/
def pyStrip (s : String) : String :=
  ⟨((s.data.dropWhile isSpace).reverse.dropWhile isSpace).reverse⟩

/-- One File Registry entry: the dict stored at files_shared[filename]
(server.py lines 129-133): uploader name, wall-clock timestamp, size. -/
structure FileRecord where
  uploader : String
  timestamp : String
  size : Int
deriving Repr, DecidableEq

/-- Dict lookup d.get(k) over an association-list model of a Python dict. -/
def lookupA {α : Type} (l : List (String × α)) (k : String) : Option α :=
  match l.find? (fun p => p.1 == k) with
  | some p => some p.2
  | none => none

/-- Dict assignment d[k] = v: overwrite in place when the key exists
(keeping its position, as Python dicts do), else append. -/
def listUpdate {α : Type} (l : List (String × α)) (k : String) (v : α) :
    List (String × α) :=
  if l.any (fun p => p.1 == k) then
    l.map (fun p => if p.1 == k then (k, v) else p)
  else l ++ [(k, v)]

/-- Removal of key k: os.remove of the stored file (server.py line 146). -/
def listRemove {α : Type} (l : List (String × α)) (k : String) :
    List (String × α) :=
  l.filter (fun p => p.1 != k)

/-- The server's shared file state: the File Registry files_shared
(server.py line 15) and the contents of the shared_files storage
directory, filename to stored bytes. -/
structure ServerFiles where
  files_shared : List (String × FileRecord)
  storage : List (String × List Byte)
deriving Repr, DecidableEq

/-- The byte-receiving loop of handle_file_upload (server.py lines 106-122):
while received is below filesize, recv min(BUFFER_SIZE, remaining) bytes;
an empty chunk (connection lost) breaks out.  Returns the bytes written to
the open file and the final received count.  The input list is what the
connection yields before EOF. -/
def recvLoop (input : List Byte) (filesize : Int) (received : Nat)
    (written : List Byte) : List Byte × Nat :=
  if h : (received : Int) < filesize then
    let chunk_size := (min (BUFFER_SIZE : Int) (filesize - received)).toNat
    let chunk := input.take chunk_size
    if hc : chunk = [] then (written, received)
    else recvLoop (input.drop chunk_size) filesize (received + chunk.length)
      (written ++ chunk)
  else (written, received)
termination_by input.length
decreasing_by
  have hin : input ≠ [] := by
    intro he; apply hc; simp [chunk, he]
  have h1 : (1 : Int) ≤ min (BUFFER_SIZE : Int) (filesize - received) := by
    apply le_min
    · norm_num [BUFFER_SIZE]
    · omega
  have h2 : 1 ≤ chunk_size := by omega
  have h3 : 0 < input.length := List.length_pos.mpr hin
  simp only [List.length_drop]
  omega

/-- What one run of the upload handler leaves behind: the new shared file
state, the reply sent to the uploader on its own connection, and the
notification broadcast to the other sessions (none when the upload failed). -/
structure UploadOutcome where
  state : ServerFiles
  reply : String
  notification : Option String
deriving Repr, DecidableEq

/-- handle_file_upload after the metadata filename|filesize was accepted and
READY sent (server.py lines 100-147): open the file for writing (creating or
truncating it), run the receive loop, then either record the file in the
registry and notify, or send an incomplete-upload error and delete the
partial file. -/
def uploadBody (st : ServerFiles) (uploader filename : String)
    (filesize : Int) (input : List Byte) (now : String) : UploadOutcome :=
  let r := recvLoop input filesize 0 []
  let written := r.1
  let received := r.2
  let storage1 := listUpdate st.storage filename written
  if (received : Int) = filesize then
    { state := { files_shared := listUpdate st.files_shared filename
                   { uploader := uploader, timestamp := now, size := filesize },
                 storage := storage1 },
      reply := "[SUCCESS] File '" ++ filename ++ "' uploaded successfully!\n",
      notification := some ("[FILE] " ++ uploader ++ " uploaded '" ++ filename
        ++ "' (" ++ toString filesize ++ " bytes)\n") }
  else
    { state := { files_shared := st.files_shared,
                 storage := listRemove storage1 filename },
      reply := "[ERROR] File upload incomplete (received " ++ toString received
        ++ "/" ++ toString filesize ++ " bytes)\n",
      notification := none }

/-- Metadata parsing of handle_file_upload (server.py lines 71-92): strip the
payload, reject an empty one, split on the pipe into exactly two parts, and
parse the size as an integer. -/
def parseMetadata (metadata : String) : Except String (String × Int) :=
  let m := pyStrip metadata
  if m = "" then .error "[ERROR] No metadata received\n"
  else
    let parts := m.splitOn "|"
    if parts.length = 2 then
      match (parts.getD 1 "").toInt? with
      | none => .error "[ERROR] Invalid file size\n"
      | some n => .ok (parts.getD 0 "", n)
    else .error "[ERROR] Invalid file metadata\n"

/-- handle_file_upload (server.py lines 62-147): parse the metadata payload,
then run the body; a parse failure replies with the error and leaves the
state untouched. -/
def handle_file_upload (st : ServerFiles) (uploader metadata : String)
    (input : List Byte) (now : String) : UploadOutcome :=
  match parseMetadata metadata with
  | .error e => { state := st, reply := e, notification := none }
  | .ok fn => uploadBody st uploader fn.1 fn.2 input now

/-- Everything one run of handle_file_download can do on the wire:
return silently with no reply (empty filename), reply ERROR and stop,
reply with OK and the size but abort on a bad acknowledgment, or reply
OK and stream the file bytes. -/
inductive DownloadOutcome where
  | noReply
  | error (msg : String)
  | abort (filesize : Nat)
  | ok (filesize : Nat) (bytes : List Byte)
deriving Repr, DecidableEq

/-- The byte-sending loop of handle_file_download (server.py lines 224-231):
while sent is below filesize, read up to BUFFER_SIZE bytes from the open
file and send them; an empty read breaks out.  The remaining list is the
unread part of the stored file. -/
def sendLoop (remaining : List Byte) (filesize sent : Nat)
    (out : List Byte) : List Byte :=
  if sent < filesize then
    let chunk := remaining.take BUFFER_SIZE
    if hc : chunk = [] then out
    else sendLoop (remaining.drop BUFFER_SIZE) filesize (sent + chunk.length)
      (out ++ chunk)
  else out
termination_by remaining.length
decreasing_by
  have hin : remaining ≠ [] := by
    intro he; apply hc; simp [chunk, he]
  have h3 : 0 < remaining.length := List.length_pos.mpr hin
  simp only [List.length_drop]
  have : 0 < BUFFER_SIZE := by norm_num [BUFFER_SIZE]
  omega

/-- handle_file_download (server.py lines 172-238): strip the requested
filename, return silently when it is empty (lines 182-184), check the File
Registry then the storage directory, reply ERROR and stop when either check
fails, else reply OK with the current on-disk size (os.path.getsize, line
204), and stream the file only after the client acknowledges READY.  The
request argument is the payload the connection yields for the filename, and
ack the payload it yields as acknowledgment. -/
def handle_file_download (st : ServerFiles) (request ack : String) :
    DownloadOutcome :=
  let filename := pyStrip request
  if filename = "" then .noReply
  else
    match lookupA st.files_shared filename with
    | none => .error "ERROR|File not found"
    | some _ =>
      match lookupA st.storage filename with
      | none => .error "ERROR|File not found on server"
      | some content =>
        let filesize := content.length
        if ack == "READY" then .ok filesize (sendLoop content filesize 0 [])
        else .abort filesize

/-- The file bytes a download run puts on the wire after its reply. -/
def downloadBytes : DownloadOutcome → List Byte
  | .ok _ bytes => bytes
  | _ => []

/-- The reply message a download run sends, if any: the silent return sends
nothing, the error branches send the error, the others send OK with size. -/
def replySent : DownloadOutcome → Option String
  | .noReply => none
  | .error msg => some msg
  | .abort n => some ("OK|" ++ toString n)
  | .ok n _ => some ("OK|" ++ toString n)

/-- One registered session as the broadcast path sees it: its display name
and whether a sendall on its connection currently succeeds. -/
structure Session where
  name : String
  sendOk : Bool
deriving Repr, DecidableEq

/-- cleanup_client (server.py lines 40-47): close the connection (errors
swallowed), then acquire clients_lock and pop the session.  clients_lock is
a plain threading.Lock, which is not reentrant: when the calling thread
already holds it, the acquire blocks forever, modelled as none.  The
registry is a list of connection handles (numbered) with their sessions. -/
def cleanup_client (lockHeldByCaller : Bool) (reg : List (Nat × Session))
    (c : Nat) : Option (List (Nat × Session)) :=
  if lockHeldByCaller then none
  else some (reg.filter (fun p => p.1 != c))

/-- The loop of broadcast (server.py lines 31-37), run while the caller
holds clients_lock: walk a snapshot of the registry, skip the excluded
connection, sendall to the others; on a send failure call cleanup_client,
which re-acquires the held clients_lock.  Returns the registry and the
list of connections the payload reached, or none when it blocks forever. -/
def broadcastLoop (reg pending : List (Nat × Session)) (exclude : Option Nat)
    (delivered : List Nat) : Option (List (Nat × Session) × List Nat) :=
  match pending with
  | [] => some (reg, delivered)
  | (c, s) :: rest =>
    if some c == exclude then broadcastLoop reg rest exclude delivered
    else if s.sendOk then broadcastLoop reg rest exclude (delivered ++ [c])
    else
      match cleanup_client true reg c with
      | none => none
      | some reg2 => broadcastLoop reg2 rest exclude delivered

/-- broadcast(msg, exclude) (server.py lines 28-37): take clients_lock, walk
list(clients.keys()) and send to everyone but the excluded connection.  The
chat path calls it with no exclusion (line 334), the upload notification
with the uploader excluded (line 140). -/
def broadcast (reg : List (Nat × Session)) (exclude : Option Nat) :
    Option (List (Nat × Session) × List Nat) :=
  broadcastLoop reg reg exclude []

/-- The finally block of handle_client (server.py lines 339-352), reached
when the worker loop ends (peer closed, quit, or error): pop the session
under clients_lock (not held here), close the socket, and when a session
record was still present broadcast the departure notice.  Returns the final
registry and the notice broadcast, or none when the departure broadcast
itself blocks forever. -/
def clientDisconnect (reg : List (Nat × Session)) (c : Nat) :
    Option (List (Nat × Session) × Option String) :=
  let client_data := (reg.find? (fun p => p.1 == c)).map Prod.snd
  let reg1 := reg.filter (fun p => p.1 != c)
  match client_data with
  | none => some (reg1, none)
  | some s =>
    match broadcast reg1 none with
    | none => none
    | some r2 => some (r2.1, some ("* " ++ s.name ++ " left the chat *\n"))

/-- The name handshake of handle_client (server.py lines 259-266): strip the
first payload; when it is empty, substitute the generated display name
User_ip:port from the peer address. -/
def chooseName (raw ip : String) (port : Nat) : String :=
  let name := pyStrip raw
  if name = "" then "User_" ++ ip ++ ":" ++ toString port
  else name

/-- Whether connection c receives the payload of a broadcast over reg with
the given exclusion (no delivery at all when the broadcast deadlocks). -/
def receivesOwnBroadcast (reg : List (Nat × Session)) (c : Nat)
    (exclude : Option Nat) : Bool :=
  match broadcast reg exclude with
  | some r => r.2.contains c
  | none => false

theorem recvLoop_complete (d : Nat) : ∀ (input : List Byte) (n r : Nat) (w : List Byte),
    n - r = d → r ≤ n → n - r ≤ input.length →
    recvLoop input (n : Int) r w = (w ++ input.take (n - r), n) := by
  induction d using Nat.strong_induction_on with
  | _ d ih =>
    intro input n r w hd hrn hlen
    rw [recvLoop]
    by_cases h : (r : Int) < (n : Int)
    · have hrn' : r < n := by exact_mod_cast h
      rw [dif_pos h]
      have hcs : (min (BUFFER_SIZE : Int) ((n:Int) - (r:Int))).toNat
          = min BUFFER_SIZE (n - r) := by
        simp only [BUFFER_SIZE]; omega
      have hcs1 : 1 ≤ min BUFFER_SIZE (n - r) := by
        simp only [BUFFER_SIZE]; omega
      have hcsle : min BUFFER_SIZE (n - r) ≤ input.length := by omega
      have hchunk : (input.take (min BUFFER_SIZE (n - r))).length
          = min BUFFER_SIZE (n - r) := by
        rw [List.length_take]; omega
      have hne : input.take (min BUFFER_SIZE (n - r)) ≠ [] := by
        intro he
        have := congrArg List.length he
        rw [hchunk] at this
        simp at this
        omega
      simp only [hcs]
      rw [dif_neg hne]
      rw [hchunk]
      rw [ih (n - (r + min BUFFER_SIZE (n - r))) (by omega)
        (input.drop (min BUFFER_SIZE (n - r))) n
        (r + min BUFFER_SIZE (n - r)) (w ++ input.take (min BUFFER_SIZE (n - r))) rfl (by omega)
        (by rw [List.length_drop]; omega)]
      have heq : w ++ input.take (min BUFFER_SIZE (n - r))
            ++ (input.drop (min BUFFER_SIZE (n - r))).take (n - (r + min BUFFER_SIZE (n - r)))
          = w ++ input.take (n - r) := by
        rw [List.append_assoc]
        congr 1
        rw [← List.take_add]
        congr 1
        omega
      rw [heq]
    · have hrn2 : r = n := by omega
      rw [dif_neg h]
      subst hrn2
      simp

theorem recvLoop_incomplete (d : Nat) : ∀ (input : List Byte) (filesize : Int)
    (r : Nat) (w : List Byte), input.length = d →
    (r : Int) + input.length < filesize →
    recvLoop input filesize r w = (w ++ input, r + input.length) := by
  induction d using Nat.strong_induction_on with
  | _ d ih =>
    intro input filesize r w hd hlt
    have h : (r : Int) < filesize := by
      have : (0 : Int) ≤ (input.length : Int) := by positivity
      omega
    rw [recvLoop, dif_pos h]
    rcases he : input with _ | ⟨b, input'⟩
    · subst he
      simp
    · rw [← he]
      have hlen1 : 1 ≤ input.length := by rw [he]; simp
      have hcs1 : 1 ≤ (min (BUFFER_SIZE : Int) (filesize - (r:Int))).toNat := by
        simp only [BUFFER_SIZE]; omega
      have hne : input.take (min (BUFFER_SIZE : Int) (filesize - (r:Int))).toNat ≠ [] := by
        intro hc
        have h0 := congrArg List.length hc
        rw [List.length_take] at h0
        simp only [List.length_nil] at h0
        omega
      rw [dif_neg hne]
      have hchl : (input.take (min (BUFFER_SIZE : Int) (filesize - (r:Int))).toNat).length
          = min (min (BUFFER_SIZE : Int) (filesize - (r:Int))).toNat input.length := by
        rw [List.length_take]
      have hpre : ((r + (input.take (min (BUFFER_SIZE : Int) (filesize - (r:Int))).toNat).length : Nat) : Int)
          + ((input.drop (min (BUFFER_SIZE : Int) (filesize - (r:Int))).toNat).length : Int) < filesize := by
        rw [List.length_drop, hchl]
        simp only [BUFFER_SIZE] at *
        push_cast
        omega
      rw [ih ((input.drop (min (BUFFER_SIZE : Int) (filesize - (r:Int))).toNat).length)
        (by rw [List.length_drop]; omega) _ filesize _ _ rfl hpre]
      have h1 : w ++ input.take (min (BUFFER_SIZE : Int) (filesize - (r:Int))).toNat
            ++ input.drop (min (BUFFER_SIZE : Int) (filesize - (r:Int))).toNat
          = w ++ input := by
        rw [List.append_assoc, List.take_append_drop]
      rw [h1]
      have h2 : r + (input.take (min (BUFFER_SIZE : Int) (filesize - (r:Int))).toNat).length
            + (input.drop (min (BUFFER_SIZE : Int) (filesize - (r:Int))).toNat).length
          = r + input.length := by
        rw [hchl, List.length_drop]; omega
      rw [h2]

theorem sendLoop_exact (d : Nat) : ∀ (remaining : List Byte) (filesize sent : Nat)
    (out : List Byte), remaining.length = d → filesize = sent + remaining.length →
    sendLoop remaining filesize sent out = out ++ remaining := by
  induction d using Nat.strong_induction_on with
  | _ d ih =>
    intro remaining filesize sent out hd hfs
    rw [sendLoop]
    rcases he : remaining with _ | ⟨b, rem'⟩
    · subst he
      simp at hfs
      simp [hfs]
    · rw [← he]
      have hlen1 : 1 ≤ remaining.length := by rw [he]; simp
      have hlt : sent < filesize := by omega
      rw [if_pos hlt]
      have hne : remaining.take BUFFER_SIZE ≠ [] := by
        intro hc
        have h0 := congrArg List.length hc
        rw [List.length_take] at h0
        simp only [List.length_nil, BUFFER_SIZE] at h0
        omega
      rw [dif_neg hne]
      have hpre : filesize = sent + (remaining.take BUFFER_SIZE).length
          + (remaining.drop BUFFER_SIZE).length := by
        rw [List.length_drop, List.length_take]
        omega
      rw [ih ((remaining.drop BUFFER_SIZE).length)
        (by rw [List.length_drop]; simp only [BUFFER_SIZE]; omega) _ filesize _ _ rfl hpre]
      rw [List.append_assoc, List.take_append_drop]

theorem lookupA_map_update {α : Type} (k : String) (v : α) :
    ∀ (l : List (String × α)), l.any (fun p => p.1 == k) = true →
    lookupA (l.map (fun p => if p.1 == k then (k, v) else p)) k = some v := by
  intro l
  induction l with
  | nil => intro h; simp at h
  | cons p t ih =>
    intro h
    by_cases hp : p.1 = k
    · simp [lookupA, List.find?, hp]
    · have hp' : (p.1 == k) = false := by simp [hp]
      simp only [List.map_cons, hp', if_false, Bool.false_eq_true]
      have ht : t.any (fun p => p.1 == k) = true := by
        simp only [List.any_cons, hp', Bool.false_or] at h
        exact h
      have := ih ht
      simp only [lookupA, List.find?] at this ⊢
      rw [hp']
      exact this

theorem lookupA_listUpdate_self {α : Type} (l : List (String × α)) (k : String) (v : α) :
    lookupA (listUpdate l k v) k = some v := by
  by_cases h : l.any (fun p => p.1 == k)
  · rw [listUpdate, if_pos h]
    exact lookupA_map_update k v l h
  · rw [listUpdate, if_neg h]
    have hn : l.find? (fun p => p.1 == k) = none := by
      rw [List.find?_eq_none]
      intro x hx
      intro hxk
      apply h
      rw [List.any_eq_true]
      exact ⟨x, hx, hxk⟩
    rw [lookupA, List.find?_append, hn]
    simp [List.find?]

theorem lookupA_listRemove {α : Type} (l : List (String × α)) (k : String) :
    lookupA (listRemove l k) k = none := by
  rw [lookupA, listRemove]
  have : (l.filter (fun p => p.1 != k)).find? (fun p => p.1 == k) = none := by
    rw [List.find?_eq_none]
    intro x hx hxk
    have hmem := List.of_mem_filter hx
    simp only [bne_iff_ne, ne_eq] at hmem
    simp only [beq_iff_eq] at hxk
    exact hmem hxk
  rw [this]

theorem countP_listUpdate {α : Type} (l : List (String × α)) (k : String) (v : α)
    (h : l.countP (fun p => p.1 == k) ≤ 1) :
    (listUpdate l k v).countP (fun p => p.1 == k) = 1 := by
  by_cases ha : l.any (fun p => p.1 == k)
  · rw [listUpdate, if_pos ha]
    have hmap : (l.map (fun p => if p.1 == k then (k, v) else p)).countP
        (fun p => p.1 == k) = l.countP (fun p => p.1 == k) := by
      rw [List.countP_map]
      apply List.countP_congr
      intro p _
      by_cases hp : p.1 = k
      · simp [hp]
      · simp [hp]
    rw [hmap]
    have hpos : 0 < l.countP (fun p => p.1 == k) := by
      rw [List.countP_pos_iff]
      rw [List.any_eq_true] at ha
      exact ha
    omega
  · rw [listUpdate, if_neg ha]
    rw [List.countP_append]
    have hz : l.countP (fun p => p.1 == k) = 0 := by
      rw [List.countP_eq_zero]
      intro x hx hxk
      apply ha
      rw [List.any_eq_true]
      exact ⟨x, hx, hxk⟩
    rw [hz]
    simp [List.countP_cons]

theorem broadcastLoop_all_ok (reg : List (Nat × Session)) (exclude : Option Nat) :
    ∀ (pending : List (Nat × Session)) (delivered : List Nat),
    (∀ p ∈ pending, p.2.sendOk = true) →
    broadcastLoop reg pending exclude delivered
      = some (reg, delivered
          ++ (pending.filter (fun p => !(some p.1 == exclude))).map Prod.fst) := by
  intro pending
  induction pending with
  | nil => intro delivered _; simp [broadcastLoop]
  | cons p rest ih =>
    intro delivered hok
    obtain ⟨c, s⟩ := p
    rw [broadcastLoop]
    by_cases hex : some c == exclude
    · rw [if_pos hex]
      rw [ih delivered (fun q hq => hok q (List.mem_cons_of_mem _ hq))]
      simp [List.filter_cons, hex]
    · rw [if_neg hex]
      have hs : s.sendOk = true := hok (c, s) (List.mem_cons_self _ _)
      rw [if_pos hs]
      rw [ih (delivered ++ [c]) (fun q hq => hok q (List.mem_cons_of_mem _ hq))]
      have hexb : (!(some c == exclude)) = true := by
        simp only [Bool.not_eq_true']
        exact Bool.of_not_eq_true hex
      simp [List.filter_cons, hexb]

theorem broadcast_all_ok (reg : List (Nat × Session)) (exclude : Option Nat)
    (h : ∀ p ∈ reg, p.2.sendOk = true) :
    broadcast reg exclude
      = some (reg, (reg.filter (fun p => !(some p.1 == exclude))).map Prod.fst) := by
  rw [broadcast, broadcastLoop_all_ok reg exclude reg [] h]
  simp

theorem uploadBody_complete (st : ServerFiles) (uploader f now : String)
    (content : List Byte) :
    uploadBody st uploader f (content.length : Int) content now =
      { state := { files_shared := listUpdate st.files_shared f
                     { uploader := uploader, timestamp := now,
                       size := (content.length : Int) },
                   storage := listUpdate st.storage f content },
        reply := "[SUCCESS] File '" ++ f ++ "' uploaded successfully!\n",
        notification := some ("[FILE] " ++ uploader ++ " uploaded '" ++ f
          ++ "' (" ++ toString (content.length : Int) ++ " bytes)\n") } := by
  have hr := recvLoop_complete (content.length - 0) content content.length 0 []
    rfl (by omega) (by simp)
  rw [uploadBody]
  simp only [hr, Nat.sub_zero, Nat.zero_add, List.take_length, List.nil_append]
  simp

theorem uploadBody_incomplete (st : ServerFiles) (uploader f now : String)
    (filesize : Int) (input : List Byte)
    (h : (input.length : Int) < filesize) :
    uploadBody st uploader f filesize input now =
      { state := { files_shared := st.files_shared,
                   storage := listRemove (listUpdate st.storage f input) f },
        reply := "[ERROR] File upload incomplete (received "
          ++ toString input.length ++ "/" ++ toString filesize ++ " bytes)\n",
        notification := none } := by
  have hr := recvLoop_incomplete input.length input filesize 0 [] rfl
    (by push_cast; omega)
  rw [uploadBody]
  have hne2 : ¬ (((input.length : Nat) : Int) = filesize) := by omega
  simp only [hr, List.nil_append, Nat.zero_add]
  rw [if_neg hne2]

theorem handle_file_download_found (st : ServerFiles) (f : String)
    (rec : FileRecord) (content : List Byte)
    (hf : pyStrip f = f) (hne : f ≠ "")
    (hreg : lookupA st.files_shared f = some rec)
    (hsto : lookupA st.storage f = some content) :
    handle_file_download st f "READY" = .ok content.length content := by
  have hsend := sendLoop_exact content.length content content.length 0 [] rfl
    (by omega)
  simp only [handle_file_download, hf, if_neg hne, hreg, hsto, hsend,
    List.nil_append]
  rfl

/-- C1: a file uploaded completely (metadata accepted, exactly filesize
bytes received and stored) is streamed back byte-identically by a
subsequent download of the same filename, for every content including the
empty one and contents spanning several 4096-byte chunks. -/
theorem upload_then_download_roundtrip (st : ServerFiles)
    (uploader fname now : String) (content : List Byte)
    (hfn : pyStrip fname = fname) (hne : fname ≠ "") :
    handle_file_download
      (uploadBody st uploader fname (content.length : Int) content now).state
      fname "READY" = .ok content.length content := by
  rw [uploadBody_complete]
  exact handle_file_download_found _ fname
    { uploader := uploader, timestamp := now, size := (content.length : Int) }
    content hfn hne (lookupA_listUpdate_self _ _ _) (lookupA_listUpdate_self _ _ _)

theorem upload_then_download_roundtrip_witness :
    handle_file_download
      (uploadBody ⟨[], []⟩ "Ann" "a.txt" (([1, 2, 3] : List Byte).length : Int)
        [1, 2, 3] "t0").state
      "a.txt" "READY" = .ok ([1, 2, 3] : List Byte).length [1, 2, 3] :=
  upload_then_download_roundtrip ⟨[], []⟩ "Ann" "a.txt" "t0" [1, 2, 3]
    (by decide) (by decide)

/-- C2: an upload whose connection yields zero bytes before the declared
filesize is reached is atomic in failure: the File Registry is unchanged,
no file of that name remains in storage, the uploader gets the
incomplete-upload error reply, and no notification is broadcast. -/
theorem upload_disconnect_atomic (st : ServerFiles)
    (uploader fname now : String) (filesize : Int) (input : List Byte)
    (h : (input.length : Int) < filesize) :
    (uploadBody st uploader fname filesize input now).state.files_shared
      = st.files_shared ∧
    lookupA (uploadBody st uploader fname filesize input now).state.storage
      fname = none ∧
    (uploadBody st uploader fname filesize input now).reply
      = "[ERROR] File upload incomplete (received " ++ toString input.length
        ++ "/" ++ toString filesize ++ " bytes)\n" ∧
    (uploadBody st uploader fname filesize input now).notification = none := by
  rw [uploadBody_incomplete st uploader fname now filesize input h]
  exact ⟨rfl, lookupA_listRemove _ _, rfl, rfl⟩

theorem upload_disconnect_atomic_witness :
    (uploadBody ⟨[], []⟩ "Ann" "a.txt" 5 [1, 2] "t0").state.files_shared
      = (⟨[], []⟩ : ServerFiles).files_shared ∧
    lookupA (uploadBody ⟨[], []⟩ "Ann" "a.txt" 5 [1, 2] "t0").state.storage
      "a.txt" = none ∧
    (uploadBody ⟨[], []⟩ "Ann" "a.txt" 5 [1, 2] "t0").reply
      = "[ERROR] File upload incomplete (received "
        ++ toString ([1, 2] : List Byte).length ++ "/" ++ toString (5 : Int)
        ++ " bytes)\n" ∧
    (uploadBody ⟨[], []⟩ "Ann" "a.txt" 5 [1, 2] "t0").notification = none :=
  upload_disconnect_atomic ⟨[], []⟩ "Ann" "a.txt" "t0" 5 [1, 2] (by decide)

/-- C4: a download request for a stripped, non-empty filename that is
absent from the File Registry is answered with the single reply
ERROR|File not found and zero file bytes; one whose name is in the
registry but missing from storage is answered with ERROR|File not found
on server and zero file bytes, whatever the client would have sent as
acknowledgment. -/
theorem download_missing_replies_error (st : ServerFiles) (req ack : String)
    (hne : pyStrip req ≠ "") :
    (lookupA st.files_shared (pyStrip req) = none →
      handle_file_download st req ack = .error "ERROR|File not found" ∧
      downloadBytes (handle_file_download st req ack) = []) ∧
    (∀ rec, lookupA st.files_shared (pyStrip req) = some rec →
      lookupA st.storage (pyStrip req) = none →
      handle_file_download st req ack = .error "ERROR|File not found on server" ∧
      downloadBytes (handle_file_download st req ack) = []) := by
  constructor
  · intro hreg
    have h1 : handle_file_download st req ack = .error "ERROR|File not found" := by
      simp only [handle_file_download, if_neg hne, hreg]
    exact ⟨h1, by rw [h1]; rfl⟩
  · intro rec hreg hsto
    have h1 : handle_file_download st req ack
        = .error "ERROR|File not found on server" := by
      simp only [handle_file_download, if_neg hne, hreg, hsto]
    exact ⟨h1, by rw [h1]; rfl⟩

theorem download_missing_replies_error_witness :
    (lookupA (⟨[], []⟩ : ServerFiles).files_shared (pyStrip "ghost.txt") = none →
      handle_file_download ⟨[], []⟩ "ghost.txt" "x"
        = .error "ERROR|File not found" ∧
      downloadBytes (handle_file_download ⟨[], []⟩ "ghost.txt" "x") = []) ∧
    (∀ rec, lookupA (⟨[], []⟩ : ServerFiles).files_shared (pyStrip "ghost.txt")
        = some rec →
      lookupA (⟨[], []⟩ : ServerFiles).storage (pyStrip "ghost.txt") = none →
      handle_file_download ⟨[], []⟩ "ghost.txt" "x"
        = .error "ERROR|File not found on server" ∧
      downloadBytes (handle_file_download ⟨[], []⟩ "ghost.txt" "x") = []) :=
  download_missing_replies_error ⟨[], []⟩ "ghost.txt" "x" (by decide)

/-- C7: uploading the same filename twice, both uploads complete, leaves
exactly one File Registry record for that name, carrying the second
upload's uploader, timestamp and size, and a subsequent download returns
the second upload's content (last writer wins).  The count hypothesis is
the Python dict invariant that a key occurs at most once. -/
theorem upload_last_writer_wins (st : ServerFiles) (u1 u2 f t1 t2 : String)
    (c1 c2 : List Byte) (hf : pyStrip f = f) (hne : f ≠ "")
    (hdiff : c1 ≠ c2 ∨ u1 ≠ u2 ∨ c1.length ≠ c2.length)
    (hcount : st.files_shared.countP (fun p => p.1 == f) ≤ 1) :
    lookupA (uploadBody (uploadBody st u1 f (c1.length : Int) c1 t1).state
        u2 f (c2.length : Int) c2 t2).state.files_shared f
      = some { uploader := u2, timestamp := t2, size := (c2.length : Int) } ∧
    (uploadBody (uploadBody st u1 f (c1.length : Int) c1 t1).state
        u2 f (c2.length : Int) c2 t2).state.files_shared.countP
        (fun p => p.1 == f) = 1 ∧
    handle_file_download (uploadBody (uploadBody st u1 f (c1.length : Int) c1 t1).state
        u2 f (c2.length : Int) c2 t2).state f "READY"
      = .ok c2.length c2 := by
  rw [uploadBody_complete, uploadBody_complete]
  refine ⟨lookupA_listUpdate_self _ _ _, ?_, ?_⟩
  · apply countP_listUpdate
    have h1 := countP_listUpdate st.files_shared f
      { uploader := u1, timestamp := t1, size := (c1.length : Int) } hcount
    show (listUpdate st.files_shared f
      { uploader := u1, timestamp := t1, size := (c1.length : Int) }).countP
      (fun p => p.1 == f) ≤ 1
    omega
  · exact handle_file_download_found _ f
      { uploader := u2, timestamp := t2, size := (c2.length : Int) } c2 hf hne
      (lookupA_listUpdate_self _ _ _) (lookupA_listUpdate_self _ _ _)

theorem upload_last_writer_wins_witness :
    lookupA (uploadBody (uploadBody ⟨[], []⟩ "Ann" "a.txt"
        (([1] : List Byte).length : Int) [1] "t1").state
        "Bob" "a.txt" (([2, 3] : List Byte).length : Int) [2, 3] "t2").state.files_shared
        "a.txt"
      = some { uploader := "Bob", timestamp := "t2",
               size := (([2, 3] : List Byte).length : Int) } ∧
    (uploadBody (uploadBody ⟨[], []⟩ "Ann" "a.txt"
        (([1] : List Byte).length : Int) [1] "t1").state
        "Bob" "a.txt" (([2, 3] : List Byte).length : Int) [2, 3] "t2").state.files_shared.countP
        (fun p => p.1 == "a.txt") = 1 ∧
    handle_file_download (uploadBody (uploadBody ⟨[], []⟩ "Ann" "a.txt"
        (([1] : List Byte).length : Int) [1] "t1").state
        "Bob" "a.txt" (([2, 3] : List Byte).length : Int) [2, 3] "t2").state "a.txt" "READY"
      = .ok ([2, 3] : List Byte).length [2, 3] :=
  upload_last_writer_wins ⟨[], []⟩ "Ann" "Bob" "a.txt" "t1" "t2" [1] [2, 3]
    (by decide) (by decide) (Or.inl (by decide)) (by decide)

/-- C10: a successful download handshake advertises, and then streams, the
current on-disk size of the stored file, not the size recorded in the File
Registry: for any record whose recorded size differs from the stored
content's length, the reply carries the stored length and exactly the
stored bytes are streamed. -/
theorem download_advertises_storage_size (st : ServerFiles) (f : String)
    (rec : FileRecord) (content : List Byte)
    (hf : pyStrip f = f) (hne : f ≠ "")
    (hreg : lookupA st.files_shared f = some rec)
    (hsto : lookupA st.storage f = some content)
    (hdiff : rec.size ≠ (content.length : Int)) :
    handle_file_download st f "READY" = .ok content.length content :=
  handle_file_download_found st f rec content hf hne hreg hsto

theorem download_advertises_storage_size_witness :
    handle_file_download
      ⟨[("a.txt", { uploader := "Ann", timestamp := "t0", size := 99 })],
       [("a.txt", [7, 8, 9])]⟩ "a.txt" "READY"
      = .ok ([7, 8, 9] : List Byte).length [7, 8, 9] :=
  download_advertises_storage_size
    ⟨[("a.txt", { uploader := "Ann", timestamp := "t0", size := 99 })],
     [("a.txt", [7, 8, 9])]⟩ "a.txt"
    { uploader := "Ann", timestamp := "t0", size := 99 } [7, 8, 9]
    (by decide) (by decide) (by decide) (by decide) (by decide)

/-- C9: a download request whose payload strips to the empty filename gets
no reply at all, neither an OK nor an ERROR message, and the handler
returns silently, unlike a non-empty unknown name, which is answered with
the ERROR|File not found message. -/
theorem download_empty_filename_silent (st : ServerFiles) (req ack : String)
    (h : pyStrip req = "") :
    handle_file_download st req ack = .noReply ∧
    replySent (handle_file_download st req ack) = none ∧
    (∀ r2, pyStrip r2 ≠ "" → lookupA st.files_shared (pyStrip r2) = none →
      replySent (handle_file_download st r2 ack)
        = some "ERROR|File not found") := by
  have h1 : handle_file_download st req ack = .noReply := by
    simp [handle_file_download, h]
  refine ⟨h1, by rw [h1]; rfl, ?_⟩
  intro r2 hr2 hreg
  simp only [handle_file_download, if_neg hr2, hreg]
  rfl

theorem download_empty_filename_silent_witness :
    handle_file_download (⟨[], []⟩ : ServerFiles) " " "x" = .noReply ∧
    replySent (handle_file_download (⟨[], []⟩ : ServerFiles) " " "x") = none ∧
    (∀ r2, pyStrip r2 ≠ "" →
      lookupA (⟨[], []⟩ : ServerFiles).files_shared (pyStrip r2) = none →
      replySent (handle_file_download (⟨[], []⟩ : ServerFiles) r2 "x")
        = some "ERROR|File not found") :=
  download_empty_filename_silent ⟨[], []⟩ " " "x" (by decide)

/-- C8: a name-handshake response that strips to the empty string makes the
session register under the generated display name User_ip:port derived
from the peer address, and no handshake outcome ever yields an empty
display name. -/
theorem empty_handshake_generated_name (raw ip : String) (port : Nat)
    (h : pyStrip raw = "") :
    chooseName raw ip port = "User_" ++ ip ++ ":" ++ toString port ∧
    (∀ raw2, chooseName raw2 ip port ≠ "") := by
  constructor
  · simp [chooseName, h]
  · intro raw2
    by_cases h2 : pyStrip raw2 = ""
    · have hcn : chooseName raw2 ip port = "User_" ++ ip ++ ":" ++ toString port := by
        simp [chooseName, h2]
      rw [hcn]
      intro hc
      have hlen := congrArg String.length hc
      rw [String.length_append, String.length_append, String.length_append]
        at hlen
      have h5 : ("User_" : String).length = 5 := rfl
      have hcolon : (":" : String).length = 1 := rfl
      have h0 : ("" : String).length = 0 := rfl
      rw [h5, hcolon, h0] at hlen
      omega
    · simp only [chooseName, if_neg h2]
      exact h2

theorem empty_handshake_generated_name_witness :
    chooseName "  " "10.0.0.1" 5000 = "User_" ++ "10.0.0.1" ++ ":" ++ toString 5000 ∧
    (∀ raw2, chooseName raw2 "10.0.0.1" 5000 ≠ "") :=
  empty_handshake_generated_name "  " "10.0.0.1" 5000 (by decide)

/-- C3: evaluating broadcast on a registry holding one session whose
sendall raises shows the claim false on the code: instead of evicting the
session and returning normally, the except branch calls cleanup_client,
which re-acquires the non-reentrant clients_lock the broadcast loop
already holds, and the call blocks forever (result none). -/
theorem broadcast_send_failure_deadlocks :
    broadcast [(0, { name := "Ann", sendOk := false })] none = none := by decide

/-- C5: the two transport-error paths: a peer-closed worker exit does run
the disconnect treatment (deregistration, close, departure notice
broadcast), but a send failure detected during broadcast blocks forever on
the re-acquired clients_lock, so that session is never deregistered and no
departure notice for it is ever broadcast. -/
theorem transport_error_disconnect_paths :
    clientDisconnect [(0, { name := "Ann", sendOk := true }),
        (1, { name := "Bob", sendOk := true })] 1
      = some ([(0, { name := "Ann", sendOk := true })],
          some "* Bob left the chat *\n") ∧
    broadcast [(0, { name := "Ann", sendOk := true }),
        (1, { name := "Bob", sendOk := false })] none = none :=
  ⟨by decide, by decide⟩

/-- C6 counterexample: on a registry holding sessions 0 (Ann) and 1 (Bob),
both healthy, the sender 0 receives its own chat-message broadcast, which
server.py line 334 issues with no exclusion, but not its own
upload-success notification, which line 140 issues with the sender
excluded: the echo policy is not uniform across the two fan-outs. -/
theorem broadcast_echo_policy_not_uniform :
    receivesOwnBroadcast [(0, { name := "Ann", sendOk := true }),
        (1, { name := "Bob", sendOk := true })] 0 none = true ∧
    receivesOwnBroadcast [(0, { name := "Ann", sendOk := true }),
        (1, { name := "Bob", sendOk := true })] 0 (some 0) = false :=
  ⟨by decide, by decide⟩

/-- C6 amended: the sender is included in the recipient set of its own
chat-message broadcast (called with no exclusion) and excluded from the
recipient set of its own upload-success notification (called with the
sender excluded), for every registry of healthy sessions containing the
sender. -/
theorem chat_echo_included_upload_echo_excluded
    (reg : List (Nat × Session)) (c : Nat) (s : Session)
    (hmem : (c, s) ∈ reg) (hok : ∀ p ∈ reg, p.2.sendOk = true) :
    (∃ d, broadcast reg none = some (reg, d) ∧ c ∈ d) ∧
    (∀ d, broadcast reg (some c) = some (reg, d) → c ∉ d) := by
  constructor
  · refine ⟨_, broadcast_all_ok reg none hok, ?_⟩
    have hfil : reg.filter (fun p => !(some p.1 == (none : Option Nat))) = reg := by
      apply List.filter_eq_self.mpr
      intro p _
      simp
    rw [hfil]
    exact List.mem_map.mpr ⟨(c, s), hmem, rfl⟩
  · intro d hd hcd
    rw [broadcast_all_ok reg (some c) hok] at hd
    simp only [Option.some.injEq, Prod.mk.injEq, true_and] at hd
    rw [← hd] at hcd
    obtain ⟨p, hp, hpc⟩ := List.mem_map.mp hcd
    have hpf := List.of_mem_filter hp
    rw [hpc] at hpf
    simp at hpf

theorem chat_echo_included_upload_echo_excluded_witness :
    (∃ d, broadcast [(0, { name := "Ann", sendOk := true }),
        (1, { name := "Bob", sendOk := true })] none
      = some ([(0, { name := "Ann", sendOk := true }),
          (1, { name := "Bob", sendOk := true })], d) ∧ 0 ∈ d) ∧
    (∀ d, broadcast [(0, { name := "Ann", sendOk := true }),
        (1, { name := "Bob", sendOk := true })] (some 0)
      = some ([(0, { name := "Ann", sendOk := true }),
          (1, { name := "Bob", sendOk := true })], d) → 0 ∉ d) :=
  chat_echo_included_upload_echo_excluded
    [(0, { name := "Ann", sendOk := true }), (1, { name := "Bob", sendOk := true })]
    0 { name := "Ann", sendOk := true } (by decide) (by decide)
